import Mathlib

/-!
Verification of the Day-trader paper-trading platform (Node.js backend)
against its specification.

Money, prices and derived quantities are modelled as exact rationals (`Rat`);
the source uses JavaScript IEEE doubles.  Where a claim depends on a numeric
identity this is noted at the definition.  Share quantities are integers
(`Int`), as in the database schema; the request/route layer produces positive
integers, but the ledger itself stores signed integers, which matters for one
of the claims.  All definitions follow the backend sources
(`backend/models/Position.js`, `backend/services/executionEngine.js`,
`backend/services/backtestEngine.js`, `backend/services/marketData.js`,
`backend/routes/paperTrading.js`); each definition's doc comment names the
source function it embeds.

The ledger is viewed through the lens of a single `(account, symbol)` pair:
every claim under study concerns one account and one symbol, and the database
rows for other keys are untouched by the operations involved.
-/

/-- Order/transaction side, `orders.side ∈ {buy, sell}`. -/
inductive Side
  | buy
  | sell
deriving DecidableEq, Repr

/-- `orders.status`; the engines create orders `pending` and immediately
`fill` them (`Order.create` + `Order.fill` in `backend/models/Order.js`). -/
inductive OrderStatus
  | pending
  | filled
  | cancelled
deriving DecidableEq, Repr

/-- A row of the `orders` table restricted to the fields the fill operations
write (`Order.create` in `backend/models/Order.js`); the fixed
`(user, account, symbol)` key is implicit in the single-symbol view. -/
structure OrderRow where
  side : Side
  quantity : Int
  price : Rat
  status : OrderStatus
deriving DecidableEq, Repr

/-- A row of the `transactions` table as written by `Transaction.create`
(`backend/models/Transaction.js`), single-symbol view. -/
structure TxnRow where
  ttype : Side
  quantity : Int
  price : Rat
  amount : Rat
  balance_after : Rat
deriving DecidableEq, Repr

/-- A row of the `positions` table for the fixed `(account_id, symbol)` key:
`quantity` (INTEGER) and `average_price` (NUMERIC).  The derived market-value
columns are written only by the read-side routes and are not part of the fill
semantics under study. -/
structure Position where
  quantity : Int
  average_price : Rat
deriving DecidableEq, Repr

/-- The ledger state touched by a fill for one `(account, symbol)` pair:
the `paper_accounts.balance` column, the optional `positions` row
(`none` = no row), and the append-only `orders` and `transactions` tables. -/
structure Ledger where
  balance : Rat
  position : Option Position
  orders : List OrderRow
  txns : List TxnRow
deriving DecidableEq, Repr

/-- `Position.upsert` (`backend/models/Position.js`, lines 12-56).
Reads the existing row; if present, adds the signed `quantity`, closes the
row when the sum is zero, and otherwise recomputes `average_price` by the
weighted-average formula
`(existing.quantity * existing.average_price + quantity * averagePrice) / newQuantity`.
If absent, inserts `(quantity, averagePrice)`.  Note that the weighted-average
formula is applied for sells too (callers pass a negative `quantity`). -/
def Position.upsert (existing : Option Position) (quantity : Int) (averagePrice : Rat) :
    Option Position :=
  match existing with
  | some p =>
      let newQuantity := p.quantity + quantity
      if newQuantity = 0 then
        none
      else
        let totalCost := (p.quantity : Rat) * p.average_price + (quantity : Rat) * averagePrice
        some { quantity := newQuantity, average_price := totalCost / (newQuantity : Rat) }
  | none => some { quantity := quantity, average_price := averagePrice }

namespace ExecutionEngine

/-- `ExecutionEngine.executeBuy` (`backend/services/executionEngine.js`,
lines 249-303).  Re-reads the account balance, rejects (returns with no
side effects, only a log line) when `balance < quantity * price`; otherwise
records a filled order, debits the balance, upserts the position at the fill
price, and appends a transaction carrying the post-fill balance. -/
def executeBuy (l : Ledger) (quantity : Int) (price : Rat) : Ledger :=
  let totalCost := (quantity : Rat) * price
  if l.balance < totalCost then l
  else
    let newBalance := l.balance - totalCost
    { balance := newBalance
      position := Position.upsert l.position quantity price
      orders := l.orders ++ [{ side := .buy, quantity := quantity, price := price, status := .filled }]
      txns := l.txns ++ [{ ttype := .buy, quantity := quantity, price := price,
                           amount := -totalCost, balance_after := newBalance }] }

/-- `ExecutionEngine.executeSell` (`backend/services/executionEngine.js`,
lines 308-357).  Performs NO precondition check of any kind: it records a
filled sell order, credits `quantity * price` to the balance, calls
`Position.upsert` with the negated quantity and the sell price, and appends
a transaction. -/
def executeSell (l : Ledger) (quantity : Int) (price : Rat) : Ledger :=
  let totalProceeds := (quantity : Rat) * price
  let newBalance := l.balance + totalProceeds
  { balance := newBalance
    position := Position.upsert l.position (-quantity) price
    orders := l.orders ++ [{ side := .sell, quantity := quantity, price := price, status := .filled }]
    txns := l.txns ++ [{ ttype := .sell, quantity := quantity, price := price,
                         amount := totalProceeds, balance_after := newBalance }] }

end ExecutionEngine

/-- Response of the manual-order route, `POST /paper-trading/orders`
(`backend/routes/paperTrading.js`). -/
inductive OrderResponse
  | ok
  | insufficientBalance
  | insufficientShares
deriving DecidableEq, Repr

/-- The buy branch of `POST /paper-trading/orders`
(`backend/routes/paperTrading.js`, lines 140-148): rejects with
`Insufficient balance` (HTTP 400) before calling `executeBuy` when
`balance < quantity * price`; the ledger is returned unchanged in that case. -/
def placeBuyOrder (l : Ledger) (quantity : Int) (price : Rat) : OrderResponse × Ledger :=
  let totalCost := (quantity : Rat) * price
  if l.balance < totalCost then (.insufficientBalance, l)
  else (.ok, ExecutionEngine.executeBuy l quantity price)

/-- The sell branch of `POST /paper-trading/orders`
(`backend/routes/paperTrading.js`, lines 149-158): loads the position and
rejects with `Insufficient shares` (HTTP 400) before calling `executeSell`
when there is no position row or `position.quantity < quantity`. -/
def placeSellOrder (l : Ledger) (quantity : Int) (price : Rat) : OrderResponse × Ledger :=
  match l.position with
  | none => (.insufficientShares, l)
  | some pos =>
      if pos.quantity < quantity then (.insufficientShares, l)
      else (.ok, ExecutionEngine.executeSell l quantity price)

/-- A fill request against the ledger, as issued by the engines and the
manual-order route: a buy or a sell of a given quantity at the last quote
price. -/
inductive Fill
  | buy (quantity : Int) (price : Rat)
  | sell (quantity : Int) (price : Rat)
deriving DecidableEq, Repr

/-- Quantity of a fill request. -/
def Fill.qty : Fill → Int
  | .buy q _ => q
  | .sell q _ => q

/-- Price of a fill request. -/
def Fill.price : Fill → Rat
  | .buy _ p => p
  | .sell _ p => p

/-- Dispatch of one fill to the corresponding engine operation. -/
def applyFill (l : Ledger) (f : Fill) : Ledger :=
  match f with
  | .buy q p => ExecutionEngine.executeBuy l q p
  | .sell q p => ExecutionEngine.executeSell l q p

/-- A sequence of fills applied in order. -/
def applyFills (l : Ledger) (fs : List Fill) : Ledger :=
  fs.foldl applyFill l

/-- The fields of a `paper_accounts` row used by the engine
(`backend/models/PaperAccount.js`).  The live engine caches this record in
its per-algorithm context at `startAlgorithm` time and passes the cached
snapshot to rule evaluation and action sizing. -/
structure PaperAccount where
  balance : Rat
  initial_balance : Rat
  total_value : Rat
deriving DecidableEq, Repr

/-- A quote as assembled by `MarketDataService.getQuote`
(`backend/services/marketData.js`, lines 21-59).  `open_` renders the JS
field `open` (a reserved word in Lean); `timestamp` is Unix milliseconds. -/
structure Quote where
  symbol : String
  price : Rat
  previousClose : Rat
  open_ : Rat
  high : Rat
  low : Rat
  volume : Int
  timestamp : Int
  change : Rat
  changePercent : Rat
deriving DecidableEq, Repr

/-- `rule.condition_value` is a string; `evaluateRule` first tries
`parseFloat` on it and falls back to a field lookup when the parse yields
`NaN`.  The embedding splits the string space along that partition:
`num v` stands for a string parsing to the finite decimal `v`, `field name`
for a non-numeric string treated as a context field name. -/
inductive CondValue
  | num (v : Rat)
  | field (name : String)
deriving DecidableEq, Repr

/-- The qualifier of `rule.action` after `split(':')`: the literal `max`,
the literal `all`, a numeric string `N`, or a percentage string `N%`.
A qualifier that is valid only for the other verb (`buy:all`, `sell:max`)
makes `parseFloat` return `NaN` in the source, and the computed quantity
(`NaN`) fails the `quantity > 0` guard; the embedding realises that as a
quantity of 0 in the corresponding branch. -/
inductive ActionValue
  | max
  | all
  | num (v : Rat)
  | pct (v : Rat)
deriving DecidableEq, Repr

/-- The verb of `rule.action` before the colon; anything other than
`buy`/`sell` falls through both branches of `executeAction` (no-op). -/
inductive ActionVerb
  | buy
  | sell
  | other
deriving DecidableEq, Repr

/-- `rule.action` parsed as `<verb>:<qualifier>`. -/
structure RuleAction where
  verb : ActionVerb
  value : ActionValue
deriving DecidableEq, Repr

/-- A row of `algorithm_rules` as consumed by both engines
(`backend/models/AlgorithmRule.js`). -/
structure AlgorithmRule where
  id : Nat
  rule_type : String
  condition_field : String
  condition_operator : String
  condition_value : CondValue
  action : RuleAction
  order_index : Int
deriving DecidableEq, Repr

/-- A row of `trading_algorithms` (`backend/models/TradingAlgorithm.js`). -/
structure TradingAlgorithm where
  id : Nat
  user_id : Nat
  name : String
  is_active : Bool
deriving DecidableEq, Repr

/-- The `position` sub-record of the market context.  The live engine copies
`quantity`, `average_price` and the derived `unrealized_pl` columns from the
positions row (the derived columns are NULL unless a read-side route has
refreshed them, hence `Option`); the backtest engine computes all four. -/
structure PositionCtx where
  quantity : Int
  averagePrice : Rat
  unrealizedPL : Option Rat
  unrealizedPLPercent : Option Rat
deriving DecidableEq, Repr

/-- The `marketContext` object built per symbol.  `balance` and the
indicator fields are present only in the backtest context (`Option`);
the live engine's context carries neither. -/
structure MarketContext where
  symbol : String
  price : Rat
  open_ : Rat
  high : Rat
  low : Rat
  volume : Int
  change : Rat
  changePercent : Rat
  position : Option PositionCtx
  balance : Option Rat
  sma_20 : Option Rat
  sma_50 : Option Rat
  rsi : Option Rat
deriving DecidableEq, Repr

/-- `s.startsWith(p)` rendered over the character lists (the fields in play
are ASCII, so character and byte prefixes coincide). -/
def strStartsWith (s p : String) : Bool :=
  p.data.isPrefixOf s.data

/-- The part of `condition_field` after the `position.` prefix
(JS `condition_field.split('.')[1]`), rendered as dropping the 9-character
prefix from the character list. -/
def strDropPrefix9 (s : String) : String :=
  String.mk (s.data.drop 9)

/-- Dynamic lookup `marketContext[field]` restricted to the numeric fields a
rule can name; a name bound to no numeric field yields `none`
(JS `undefined`). -/
def lookupField (ctx : MarketContext) (field : String) : Option Rat :=
  if field = "price" then some ctx.price
  else if field = "open" then some ctx.open_
  else if field = "high" then some ctx.high
  else if field = "low" then some ctx.low
  else if field = "volume" then some (ctx.volume : Rat)
  else if field = "change" then some ctx.change
  else if field = "changePercent" then some ctx.changePercent
  else if field = "balance" then ctx.balance
  else if field = "sma_20" then ctx.sma_20
  else if field = "sma_50" then ctx.sma_50
  else if field = "rsi" then ctx.rsi
  else none

/-- Lookup `marketContext.position[posField]` where `posField` is the part of
`condition_field` after `position.`. -/
def lookupPosField (pos : PositionCtx) (field : String) : Option Rat :=
  if field = "quantity" then some (pos.quantity : Rat)
  else if field = "averagePrice" then some pos.averagePrice
  else if field = "unrealizedPL" then pos.unrealizedPL
  else if field = "unrealizedPLPercent" then pos.unrealizedPLPercent
  else none

/-- The comparison shared by both `evaluateRule` copies: the `switch` on
`condition_operator` (`>`, `<`, `>=`, `<=`, `==`/`=`, `!=`, default false). -/
def applyOperator (fieldValue compareValue : Rat) (op : String) : Bool :=
  if op = ">" then fieldValue > compareValue
  else if op = "<" then fieldValue < compareValue
  else if op = ">=" then fieldValue ≥ compareValue
  else if op = "<=" then fieldValue ≤ compareValue
  else if op = "==" ∨ op = "=" then fieldValue = compareValue
  else if op = "!=" then fieldValue ≠ compareValue
  else false

/-- Resolution of `condition_value` shared by both `evaluateRule` copies:
a numeric string is used directly, otherwise the string is looked up as a
context field with `|| 0` fallback. -/
def resolveCondValue (ctx : MarketContext) : CondValue → Rat
  | .num v => v
  | .field name => (lookupField ctx name).getD 0

namespace ExecutionEngine

/-- `ExecutionEngine.evaluateRule` (`backend/services/executionEngine.js`,
lines 146-188).  A `position.` field with no position present, or any
unresolvable field, makes the rule return false; `balance` reads the
`account` record passed in (the snapshot cached at start time). -/
def evaluateRule (rule : AlgorithmRule) (ctx : MarketContext) (account : PaperAccount) : Bool :=
  let fieldValue? : Option Rat :=
    if strStartsWith rule.condition_field "position." then
      match ctx.position with
      | none => none
      | some pos => lookupPosField pos (strDropPrefix9 rule.condition_field)
    else if rule.condition_field = "balance" then some account.balance
    else lookupField ctx rule.condition_field
  match fieldValue? with
  | none => false
  | some fieldValue =>
      applyOperator fieldValue (resolveCondValue ctx rule.condition_value) rule.condition_operator

/-- `ExecutionEngine.executeAction` (`backend/services/executionEngine.js`,
lines 193-244).  Buy sizing uses `account.balance` from the snapshot record
passed in; sell sizing uses `marketContext.position` from the same snapshot.
The resulting fill is submitted against the current ledger `l` (the
database), on which `executeBuy` re-reads the balance for its affordability
check. -/
def executeAction (rule : AlgorithmRule) (ctx : MarketContext) (account : PaperAccount)
    (l : Ledger) : Ledger :=
  match rule.action.verb with
  | .buy =>
      let quantity : Int :=
        match rule.action.value with
        | .max => ⌊account.balance / ctx.price⌋
        | .pct v => ⌊account.balance * (v / 100) / ctx.price⌋
        | .num v => ⌊v⌋
        | .all => 0
      if 0 < quantity then executeBuy l quantity ctx.price else l
  | .sell =>
      match ctx.position with
      | none => l
      | some pos =>
          if pos.quantity = 0 then l
          else
            let quantity : Int :=
              match rule.action.value with
              | .all => pos.quantity
              | .pct v => ⌊(pos.quantity : Rat) * (v / 100)⌋
              | .num v => min ⌊v⌋ pos.quantity
              | .max => 0
            if 0 < quantity then executeSell l quantity ctx.price else l
  | .other => l

end ExecutionEngine

/-- The comparator key order of `rules.sort((a, b) => a.order_index - b.order_index)`. -/
def ruleLe (a b : AlgorithmRule) : Prop := a.order_index ≤ b.order_index

instance : DecidableRel ruleLe := fun a b => inferInstanceAs (Decidable (_ ≤ _))

instance : IsTotal AlgorithmRule ruleLe := ⟨fun a b => le_total a.order_index b.order_index⟩

instance : IsTrans AlgorithmRule ruleLe := ⟨fun _ _ _ h h' => le_trans h h'⟩

/-- `rules.sort((a, b) => a.order_index - b.order_index)` as used at
`executionEngine.js` line 125 and `backtestEngine.js` line 100: a stable
sort ascending by `order_index` (`Array.prototype.sort` is stable). -/
def sortRules (rules : List AlgorithmRule) : List AlgorithmRule :=
  List.insertionSort ruleLe rules

namespace ExecutionEngine

/-- Construction of the live `marketContext` for one symbol
(`executionEngine.js`, lines 107-122): quote fields plus the position row
read from the ledger at this point.  The live context has no `balance` and
no indicator fields. -/
def buildMarketContext (symbol : String) (quote : Quote) (position : Option Position) :
    MarketContext :=
  { symbol := symbol
    price := quote.price
    open_ := quote.open_
    high := quote.high
    low := quote.low
    volume := quote.volume
    change := quote.change
    changePercent := quote.changePercent
    position := position.map fun p =>
      { quantity := p.quantity, averagePrice := p.average_price,
        unrealizedPL := none, unrealizedPLPercent := none }
    balance := none
    sma_20 := none
    sma_50 := none
    rsi := none }

/-- The body of `ExecutionEngine.evaluateAlgorithm` for one symbol with a
quote (`executionEngine.js`, lines 99-135): read the position row from the
current ledger, build the market context once, sort the rules by
`order_index`, and for each rule in order evaluate it against that fixed
context (and the cached account snapshot) and, when it fires, run
`executeAction` against the ledger produced by the earlier firings. -/
def evaluateSymbol (rules : List AlgorithmRule) (symbol : String) (quote : Quote)
    (account : PaperAccount) (l : Ledger) : Ledger :=
  let ctx := buildMarketContext symbol quote l.position
  (sortRules rules).foldl
    (fun lcur rule =>
      if evaluateRule rule ctx account then executeAction rule ctx account lcur else lcur)
    l

/-- The mutable state of the `ExecutionEngine` singleton
(`executionEngine.js`, lines 14-18 and 23-83): the key set of the
`runningAlgorithms` map, the `intervals` map from algorithm id to timer
handle, the set of timer handles registered by `setInterval` and not yet
passed to `clearInterval`, and a fresh-handle counter. -/
structure EngineState where
  runningAlgorithms : List Nat
  intervals : List (Nat × Nat)
  activeTimers : List Nat
  nextTimer : Nat
deriving DecidableEq, Repr

/-- `Map.set` on the key set: a present key is overwritten in place (the key
set is unchanged), a new key is appended. -/
def setKey (l : List Nat) (k : Nat) : List Nat :=
  if k ∈ l then l else l ++ [k]

/-- `Map.set` on an association list. -/
def setAssoc (l : List (Nat × Nat)) (k v : Nat) : List (Nat × Nat) :=
  if l.any (fun e => e.1 = k) then l.map (fun e => if e.1 = k then (k, v) else e)
  else l ++ [(k, v)]

/-- `Map.get` on an association list. -/
def getAssoc (l : List (Nat × Nat)) (k : Nat) : Option Nat :=
  (l.find? (fun e => e.1 = k)).map Prod.snd

/-- `ExecutionEngine.startAlgorithm` (`executionEngine.js`, lines 23-69),
registry effects.  Validations, in source order: a missing algorithm or a
user mismatch throws `Algorithm not found`; an inactive algorithm throws
`Algorithm is not active`; an empty rule list throws `Algorithm has no
rules`.  There is no check against `runningAlgorithms`: the context and a
freshly created `setInterval` handle are stored with `Map.set`,
unconditionally.  The immediate initial `evaluateAlgorithm` call touches
only the ledger, not this registry state, and is elided here. -/
def startAlgorithm (st : EngineState) (userId : Nat) (algorithmId : Nat)
    (algo? : Option TradingAlgorithm) (rules : List AlgorithmRule) :
    Except String EngineState :=
  match algo? with
  | none => .error "Algorithm not found"
  | some a =>
      if a.user_id ≠ userId then .error "Algorithm not found"
      else if ¬ a.is_active then .error "Algorithm is not active"
      else if rules.isEmpty then .error "Algorithm has no rules"
      else .ok
        { runningAlgorithms := setKey st.runningAlgorithms algorithmId
          intervals := setAssoc st.intervals algorithmId st.nextTimer
          activeTimers := st.activeTimers ++ [st.nextTimer]
          nextTimer := st.nextTimer + 1 }

/-- `ExecutionEngine.stopAlgorithm` (`executionEngine.js`, lines 74-83):
clears the interval recorded in the `intervals` map (if any) and deletes the
registry entries. -/
def stopAlgorithm (st : EngineState) (algorithmId : Nat) : EngineState :=
  let timersAfter :=
    match getAssoc st.intervals algorithmId with
    | some h => st.activeTimers.filter (fun t => t ≠ h)
    | none => st.activeTimers
  { runningAlgorithms := st.runningAlgorithms.filter (fun k => k ≠ algorithmId)
    intervals := st.intervals.filter (fun e => e.1 ≠ algorithmId)
    activeTimers := timersAfter
    nextTimer := st.nextTimer }

end ExecutionEngine

/-- One historical OHLCV bar as produced by
`MarketDataService.getHistoricalData` (`backend/services/marketData.js`,
lines 68-99): null-close bars are dropped, `timestamp` is Unix
milliseconds. -/
structure Bar where
  timestamp : Int
  open_ : Rat
  high : Rat
  low : Rat
  close : Rat
  volume : Int
deriving DecidableEq, Repr, Inhabited

namespace MarketData

/-- `NODE_ENV`.  The source's `MarketDataService` never reads it; the
parameter exists so that mode-dependence of the fallback behaviour can be
stated. -/
inductive NodeEnv
  | development
  | production
deriving DecidableEq, Repr

/-- `meta` of the upstream chart response
(`{chart:{result:[{meta, ...}]}}`). -/
structure ChartMeta where
  symbol : String
  regularMarketPrice : Rat
  chartPreviousClose : Rat
  regularMarketTime : Int
deriving DecidableEq, Repr

/-- The upstream chart payload fields `getQuote` reads: `meta` and the
`indicators.quote[0]` arrays it takes the last element of. -/
structure UpstreamChart where
  meta : ChartMeta
  open_ : List Rat
  high : List Rat
  low : List Rat
  volume : List Int
deriving DecidableEq, Repr

/-- The success path of `MarketDataService.getQuote`
(`backend/services/marketData.js`, lines 34-49): quote assembly from the
upstream response (`getLast?` with a 0 default stands for the JS
last-element access, which the claims never exercise on empty arrays). -/
def parseQuote (u : UpstreamChart) : Quote :=
  { symbol := u.meta.symbol
    price := u.meta.regularMarketPrice
    previousClose := u.meta.chartPreviousClose
    open_ := (u.open_.getLast?).getD 0
    high := (u.high.getLast?).getD 0
    low := (u.low.getLast?).getD 0
    volume := (u.volume.getLast?).getD 0
    timestamp := u.meta.regularMarketTime * 1000
    change := u.meta.regularMarketPrice - u.meta.chartPreviousClose
    changePercent := ((u.meta.regularMarketPrice - u.meta.chartPreviousClose) /
      u.meta.chartPreviousClose) * 100 }

/-- `MarketDataService.getMockQuote` (`backend/services/marketData.js`,
lines 225-241).  `rand` is the stream of `Math.random()` draws in call
order, `now` the value of `new Date()`; the synthetic quote depends on both,
so it is random, not deterministic. -/
def getMockQuote (symbol : String) (rand : Nat → Rat) (now : Int) : Quote :=
  let basePrice := 100 + rand 0 * 400
  let change := (rand 1 - 1/2) * 10
  { symbol := symbol
    price := basePrice + change
    previousClose := basePrice
    open_ := basePrice + (rand 2 - 1/2) * 5
    high := basePrice + rand 3 * 10
    low := basePrice - rand 4 * 10
    volume := ⌊rand 5 * 10000000⌋
    timestamp := now
    change := change
    changePercent := (change / basePrice) * 100 }

/-- `MarketDataService.getQuote` (`backend/services/marketData.js`,
lines 21-59), cache-miss path.  `upstream` is the outcome of the HTTP fetch.
The `catch` branch logs the error and returns `getMockQuote` — on EVERY
upstream failure, in every mode (`mode` is never consulted); no error is
ever propagated to the caller. -/
def getQuote (mode : NodeEnv) (symbol : String) (upstream : Except String UpstreamChart)
    (rand : Nat → Rat) (now : Int) : Except String Quote :=
  match upstream with
  | .ok u => .ok (parseQuote u)
  | .error _ => .ok (getMockQuote symbol rand now)

/-- `MarketDataService.getMultipleQuotes` (`backend/services/marketData.js`,
lines 106-115): `Promise.all` over `getQuote` per symbol, then a map keyed
by every requested symbol.  A rejected member promise would reject the
whole call (hence the `Except` result), but `getQuote` never rejects. -/
def getMultipleQuotes (mode : NodeEnv) (symbols : List String)
    (upstreamOf : String → Except String UpstreamChart)
    (randOf : String → Nat → Rat) (now : Int) : Except String (List (String × Quote)) :=
  symbols.mapM fun s => do
    let q ← getQuote mode s (upstreamOf s) (randOf s) now
    pure (s, q)

/-- `MarketDataService.calculateSMA` (`backend/services/marketData.js`,
lines 140-153): entry `i` is `null` for `i < period - 1`, else the mean of
the `period` closes ending at `i`. -/
def calculateSMA (data : List Bar) (period : Nat) : List (Option Rat) :=
  (List.range data.length).map fun i =>
    if i < period - 1 then none
    else some ((((data.drop (i + 1 - period)).take period).map Bar.close).sum / (period : Rat))

/-- The running Wilder averages of `calculateRSI`: `k = 0` is the simple
mean over deltas `1..period`; each further step folds in the delta at index
`period + k`. -/
def rsiAvgAux (gains losses : List Rat) (period : Nat) : Nat → Rat × Rat
  | 0 =>
      (((gains.drop 1).take period).sum / (period : Rat),
       ((losses.drop 1).take period).sum / (period : Rat))
  | k + 1 =>
      let prev := rsiAvgAux gains losses period k
      ((prev.1 * ((period : Rat) - 1) + gains.getD (period + k + 1) 0) / (period : Rat),
       (prev.2 * ((period : Rat) - 1) + losses.getD (period + k + 1) 0) / (period : Rat))

/-- `MarketDataService.calculateRSI` (`backend/services/marketData.js`,
lines 181-220).  Entries below index `period` are `null`, and everything is
`null` unless `data.length > period`.  Rational division makes
`avg_gain / avg_loss` zero when `avg_loss = 0`, where IEEE gives `Infinity`
(RSI 100) or `NaN`; no claim below depends on an RSI value at such a
point. -/
def calculateRSI (data : List Bar) (period : Nat) : List (Option Rat) :=
  let closes := data.map Bar.close
  let delta := fun (i : Nat) => closes.getD i 0 - closes.getD (i - 1) 0
  let gains := (List.range data.length).map fun i =>
    if i = 0 then 0 else if 0 < delta i then delta i else 0
  let losses := (List.range data.length).map fun i =>
    if i = 0 then 0 else if delta i < 0 then |delta i| else 0
  (List.range data.length).map fun i =>
    if period < data.length ∧ period ≤ i then
      let avgs := rsiAvgAux gains losses period (i - period)
      let rs := avgs.1 / avgs.2
      some (100 - 100 / (1 + rs))
    else none

end MarketData

namespace BacktestEngine

/-- The in-memory backtest position (`simulateTrades`, lines 159-163). -/
structure BTPosition where
  quantity : Int
  averagePrice : Rat
  entryDate : Int
deriving DecidableEq, Repr

/-- A backtest trade record (`executeAction`, lines 264-305).  JS buy
trades carry `cost` and no `proceeds/pl/plPercent`; sell trades the
converse; absent numeric fields are rendered as the 0 default, absent `pl`
fields as `none` (which is what the `t.pl && ...` truthiness filters in
`calculateMetrics` distinguish). -/
structure BTTrade where
  timestamp : Int
  side : Side
  symbol : String
  quantity : Int
  price : Rat
  cost : Rat := 0
  proceeds : Rat := 0
  pl : Option Rat := none
  plPercent : Option Rat := none
  reason : String
deriving DecidableEq, Repr

/-- One point of the backtest equity curve (`simulateTrades`,
lines 110-115). -/
structure EquityPoint where
  timestamp : Int
  balance : Rat
  position_value : Rat
  total_value : Rat
deriving DecidableEq, Repr

/-- The mutable loop state of `simulateTrades` apart from the equity
curve. -/
structure SimAcc where
  balance : Rat
  position : Option BTPosition
  trades : List BTTrade
deriving DecidableEq, Repr

/-- Result of `simulateTrades` (line 195). -/
structure SimResult where
  trades : List BTTrade
  equityCurve : List EquityPoint
  finalBalance : Rat
deriving DecidableEq, Repr

/-- `BacktestEngine.evaluateRule` (`backend/services/backtestEngine.js`,
lines 201-238).  Identical to the live copy except that there is no
`balance` special case: `balance` resolves through the generic context
lookup (the backtest context carries a `balance` field). -/
def evaluateRule (rule : AlgorithmRule) (ctx : MarketContext) : Bool :=
  let fieldValue? : Option Rat :=
    if strStartsWith rule.condition_field "position." then
      match ctx.position with
      | none => none
      | some pos => lookupPosField pos (strDropPrefix9 rule.condition_field)
    else lookupField ctx rule.condition_field
  match fieldValue? with
  | none => false
  | some fieldValue =>
      applyOperator fieldValue (resolveCondValue ctx rule.condition_value) rule.condition_operator

/-- `BacktestEngine.executeAction` (`backend/services/backtestEngine.js`,
lines 243-309).  A buy intent is considered only when no position is open
and requires `balance ≥ quantity * price`; a sell intent is considered only
when a position is open and has no quantity-versus-position or proceeds
check beyond `quantity > 0`. -/
def executeAction (rule : AlgorithmRule) (ctx : MarketContext) (currentBar : Bar)
    (balance : Rat) (position : Option BTPosition) : Option BTTrade :=
  match rule.action.verb with
  | .buy =>
      match position with
      | some _ => none
      | none =>
          let quantity : Int :=
            match rule.action.value with
            | .max => ⌊balance / ctx.price⌋
            | .pct v => ⌊balance * (v / 100) / ctx.price⌋
            | .num v => ⌊v⌋
            | .all => 0
          if 0 < quantity ∧ (quantity : Rat) * ctx.price ≤ balance then
            some { timestamp := currentBar.timestamp, side := .buy, symbol := ctx.symbol
                   quantity := quantity, price := ctx.price
                   cost := (quantity : Rat) * ctx.price
                   reason := "Rule " ++ toString rule.id ++ ": " ++ rule.rule_type }
          else none
  | .sell =>
      match position with
      | none => none
      | some pos =>
          let quantity : Int :=
            match rule.action.value with
            | .all => pos.quantity
            | .pct v => ⌊(pos.quantity : Rat) * (v / 100)⌋
            | .num v => min ⌊v⌋ pos.quantity
            | .max => 0
          if 0 < quantity then
            let proceeds := (quantity : Rat) * ctx.price
            let cost := (quantity : Rat) * pos.averagePrice
            let pl := proceeds - cost
            some { timestamp := currentBar.timestamp, side := .sell, symbol := ctx.symbol
                   quantity := quantity, price := ctx.price, proceeds := proceeds
                   pl := some pl, plPercent := some ((pl / cost) * 100)
                   reason := "Rule " ++ toString rule.id ++ ": " ++ rule.rule_type }
          else none
  | .other => none

/-- The body of the rule loop of `simulateTrades` (lines 141-170): when the
rule fires against the per-bar context snapshot, run `executeAction` against
the CURRENT balance and position, push the trade, and apply it — a buy
replaces the position wholesale with `(trade.quantity, trade.price)`, a sell
credits the proceeds and sets the position to `null` unconditionally. -/
def processRule (ctx : MarketContext) (currentBar : Bar) (acc : SimAcc)
    (rule : AlgorithmRule) : SimAcc :=
  if evaluateRule rule ctx then
    match executeAction rule ctx currentBar acc.balance acc.position with
    | some trade =>
        let trades := acc.trades ++ [trade]
        match trade.side with
        | .buy =>
            { balance := acc.balance - trade.cost
              position := some { quantity := trade.quantity, averagePrice := trade.price,
                                 entryDate := currentBar.timestamp }
              trades := trades }
        | .sell =>
            { balance := acc.balance + trade.proceeds, position := none, trades := trades }
    | none => acc
  else acc

/-- `BacktestEngine.calculateIndicators` (lines 314-339): nothing below bar
index 14; otherwise indicators over the window `[max 0 (i-50) .. i]`, each
present only with enough bars, taking the last entry of the indicator
series.  Returns `(sma_20, sma_50, rsi)`. -/
def calculateIndicators (bars : List Bar) (i : Nat) :
    Option Rat × Option Rat × Option Rat :=
  if i < 14 then (none, none, none)
  else
    let recent := (bars.drop (i - 50)).take (i + 1 - (i - 50))
    let sma20 := if 20 ≤ recent.length then ((MarketData.calculateSMA recent 20).getLast?).join else none
    let sma50 := if 50 ≤ recent.length then ((MarketData.calculateSMA recent 50).getLast?).join else none
    let rsi := if 14 ≤ recent.length then ((MarketData.calculateRSI recent 14).getLast?).join else none
    (sma20, sma50, rsi)

/-- One iteration of the bar loop of `simulateTrades` (lines 102-171):
append the equity point, build the per-bar market context (position
sub-record, balance and indicators included; `change` against the previous
close, 0 at the first bar), then fold the sorted rules with
`processRule`. -/
def simStep (bars : List Bar) (sortedRules : List AlgorithmRule) (symbol : String)
    (st : SimAcc × List EquityPoint) (i : Nat) : SimAcc × List EquityPoint :=
  let currentBar := bars.getD i default
  let price := currentBar.close
  let acc := st.1
  let positionValue := match acc.position with
    | some p => (p.quantity : Rat) * price
    | none => 0
  let equity := st.2 ++ [{ timestamp := currentBar.timestamp, balance := acc.balance,
                           position_value := positionValue,
                           total_value := acc.balance + positionValue }]
  let prevClose := (bars.getD (i - 1) default).close
  let indicators := calculateIndicators bars i
  let ctx : MarketContext :=
    { symbol := symbol
      price := price
      open_ := currentBar.open_
      high := currentBar.high
      low := currentBar.low
      volume := currentBar.volume
      change := if 0 < i then price - prevClose else 0
      changePercent := if 0 < i then ((price - prevClose) / prevClose) * 100 else 0
      position := acc.position.map fun p =>
        { quantity := p.quantity, averagePrice := p.averagePrice,
          unrealizedPL := some ((price - p.averagePrice) * (p.quantity : Rat)),
          unrealizedPLPercent := some (((price - p.averagePrice) / p.averagePrice) * 100) }
      balance := some acc.balance
      sma_20 := indicators.1
      sma_50 := indicators.2.1
      rsi := indicators.2.2 }
  (sortedRules.foldl (processRule ctx currentBar) acc, equity)

/-- `BacktestEngine.simulateTrades` (`backend/services/backtestEngine.js`,
lines 93-196): sort the rules, fold `simStep` over the bar indices, and
synthetically close any position still open at the final close with reason
`End of backtest period`.  The `algorithm` argument is part of the source
signature but unused by the body. -/
def simulateTrades (algorithm : TradingAlgorithm) (rules : List AlgorithmRule)
    (historicalData : List Bar) (symbol : String) (initialCapital : Rat) : SimResult :=
  let sorted := sortRules rules
  let init : SimAcc × List EquityPoint :=
    ({ balance := initialCapital, position := none, trades := [] }, [])
  let st := (List.range historicalData.length).foldl (simStep historicalData sorted symbol) init
  let acc := st.1
  match acc.position with
  | some p =>
      let lastBar := historicalData.getD (historicalData.length - 1) default
      let proceeds := (p.quantity : Rat) * lastBar.close
      let pl := proceeds - (p.quantity : Rat) * p.averagePrice
      let closingTrade : BTTrade :=
        { timestamp := lastBar.timestamp, side := .sell, symbol := symbol,
          quantity := p.quantity, price := lastBar.close, proceeds := proceeds,
          pl := some pl,
          plPercent := some ((pl / ((p.quantity : Rat) * p.averagePrice)) * 100),
          reason := "End of backtest period" }
      { trades := acc.trades ++ [closingTrade]
        equityCurve := st.2
        finalBalance := acc.balance + proceeds }
  | none => { trades := acc.trades, equityCurve := st.2, finalBalance := acc.balance }

/-- `BacktestEngine.calculateMaxDrawdown` (lines 392-408): running peak of
`total_value`, maximal percentage drop from the peak.  The `peak = 0`
division is 0 here where IEEE yields `NaN`/`Infinity`; no claim depends on
that point. -/
def calculateMaxDrawdown (equityCurve : List EquityPoint) : Rat :=
  let peak0 := ((equityCurve.head?).map EquityPoint.total_value).getD 0
  (equityCurve.foldl
    (fun s point =>
      let peak := if s.2 < point.total_value then point.total_value else s.2
      let drawdown := ((peak - point.total_value) / peak) * 100
      (if s.1 < drawdown then drawdown else s.1, peak))
    ((0 : Rat), peak0)).1

/-- `BacktestEngine.calculateSharpeRatio` (lines 413-430) over per-step
simple returns of `total_value`.  `sqrtFn` abstracts `Math.sqrt`, a fixed
deterministic function on doubles; the risk-free constant `0.02 / 252` is
the exact rational here. -/
def calculateSharpe (sqrtFn : Rat → Rat) (equityCurve : List EquityPoint) : Rat :=
  if equityCurve.length < 2 then 0
  else
    let values := equityCurve.map EquityPoint.total_value
    let returns := (List.range (equityCurve.length - 1)).map fun i =>
      (values.getD (i + 1) 0 - values.getD i 0) / values.getD i 0
    let avgReturn := returns.sum / (returns.length : Rat)
    let variance := (returns.map fun r => (r - avgReturn) ^ 2).sum / (returns.length : Rat)
    let stdDev := sqrtFn variance
    let riskFreeRate := (2 / 100 : Rat) / 252
    let sharpe := if 0 < stdDev then (avgReturn - riskFreeRate) / stdDev else 0
    sharpe * sqrtFn 252

/-- The metrics record returned by `calculateMetrics` (lines 372-386);
`sharpe` renders the source field `sharpe_ratio`. -/
structure Metrics where
  initial_capital : Rat
  final_capital : Rat
  total_return : Rat
  total_return_percent : Rat
  total_trades : Nat
  winning_trades : Nat
  losing_trades : Nat
  win_rate : Rat
  avg_win : Rat
  avg_loss : Rat
  profit_factor : Rat
  max_drawdown : Rat
  sharpe : Rat
deriving DecidableEq, Repr

/-- `BacktestEngine.calculateMetrics` (`backend/services/backtestEngine.js`,
lines 344-387).  The winning/losing filters render the JS truthiness guard
`t.pl && ...`: buy trades (no `pl`) never count. -/
def calculateMetrics (sqrtFn : Rat → Rat) (results : SimResult) (initialCapital : Rat) :
    Metrics :=
  let trades := results.trades
  let totalReturn := results.finalBalance - initialCapital
  let winningTrades := trades.filter fun t =>
    match t.pl with
    | some v => decide (0 < v)
    | none => false
  let losingTrades := trades.filter fun t =>
    match t.pl with
    | some v => decide (v < 0)
    | none => false
  let totalTrades := (trades.filter fun t => t.side == Side.sell).length
  let winRate := if 0 < totalTrades then ((winningTrades.length : Rat) / (totalTrades : Rat)) * 100 else 0
  let avgWin := if 0 < winningTrades.length then
      (winningTrades.map fun t => (t.pl).getD 0).sum / (winningTrades.length : Rat)
    else 0
  let avgLoss := if 0 < losingTrades.length then
      |(losingTrades.map fun t => (t.pl).getD 0).sum / (losingTrades.length : Rat)|
    else 0
  { initial_capital := initialCapital
    final_capital := results.finalBalance
    total_return := totalReturn
    total_return_percent := (totalReturn / initialCapital) * 100
    total_trades := totalTrades
    winning_trades := winningTrades.length
    losing_trades := losingTrades.length
    win_rate := winRate
    avg_win := avgWin
    avg_loss := avgLoss
    profit_factor := if 0 < avgLoss then avgWin / avgLoss else 0
    max_drawdown := calculateMaxDrawdown results.equityCurve
    sharpe := calculateSharpe sqrtFn results.equityCurve }

/-- `BacktestEngine.calculateRange` (`backend/services/backtestEngine.js`,
lines 515-527): `diffDays = Math.ceil((end - start) / 86_400_000)` and a
cascade of day thresholds.  Note the first two branches both return
`"1mo"`; `"1d"` and `"5d"` are never produced. -/
def calculateRange (startMs endMs : Int) : String :=
  let diffDays : Int := ⌈((endMs - startMs : Int) : Rat) / (1000 * 60 * 60 * 24)⌉
  if diffDays ≤ 7 then "1mo"
  else if diffDays ≤ 30 then "1mo"
  else if diffDays ≤ 90 then "3mo"
  else if diffDays ≤ 180 then "6mo"
  else if diffDays ≤ 365 then "1y"
  else if diffDays ≤ 730 then "2y"
  else "5y"

/-- Modelled from the spec (for comparison with `calculateRange`, not from
the source): the smallest of the supported ranges
`1d (1), 5d (5), 1mo (30), 3mo (90), 6mo (180), 1y (365), 2y (730), 5y`
whose duration in days covers a span of `days` days — the claim's reading
of "smallest standard bucket covering `end − start`". -/
def smallestCoveringBucket (days : Int) : String :=
  if days ≤ 1 then "1d"
  else if days ≤ 5 then "5d"
  else if days ≤ 30 then "1mo"
  else if days ≤ 90 then "3mo"
  else if days ≤ 180 then "6mo"
  else if days ≤ 365 then "1y"
  else if days ≤ 730 then "2y"
  else "5y"

/-- The smallest bucket of the set `calculateRange` actually draws from
(`1mo, 3mo, 6mo, 1y, 2y, 5y` — no `1d`, no `5d`) covering `days` days. -/
def smallestCodeBucket (days : Int) : String :=
  if days ≤ 30 then "1mo"
  else if days ≤ 90 then "3mo"
  else if days ≤ 180 then "6mo"
  else if days ≤ 365 then "1y"
  else if days ≤ 730 then "2y"
  else "5y"

end BacktestEngine

/-!  Concrete instances used by the counterexamples and witnesses below. -/

/-- A flat quote at price 150 (the spec's scenario-5 quote). -/
def quote150 : Quote :=
  { symbol := "AAPL", price := 150, previousClose := 150, open_ := 150, high := 150,
    low := 150, volume := 1000, timestamp := 0, change := 0, changePercent := 0 }

/-- Fresh account snapshot with the default 100,000 balance. -/
def acctFresh : PaperAccount :=
  { balance := 100000, initial_balance := 100000, total_value := 100000 }

/-- Account snapshot with zero cash. -/
def acctZero : PaperAccount :=
  { balance := 0, initial_balance := 100000, total_value := 100000 }

/-- Ledger with the default balance and no position. -/
def lFresh : Ledger := { balance := 100000, position := none, orders := [], txns := [] }

/-- Rule #0 of the spec's scenario 5: `IF price > 100 THEN buy:10`. -/
def rBuy10 : AlgorithmRule :=
  { id := 1, rule_type := "entry", condition_field := "price", condition_operator := ">",
    condition_value := .num 100, action := { verb := .buy, value := .num 10 },
    order_index := 0 }

/-- Rule #1 of the spec's scenario 5: `IF position.quantity > 5 THEN sell:all`. -/
def rSellPos : AlgorithmRule :=
  { id := 2, rule_type := "exit", condition_field := "position.quantity",
    condition_operator := ">", condition_value := .num 5,
    action := { verb := .sell, value := .all }, order_index := 1 }

/-- `IF position.quantity > 0 THEN sell:all`, order_index 0. -/
def rSellAll0 : AlgorithmRule :=
  { id := 3, rule_type := "exit", condition_field := "position.quantity",
    condition_operator := ">", condition_value := .num 0,
    action := { verb := .sell, value := .all }, order_index := 0 }

/-- `IF position.quantity > 0 THEN sell:all`, order_index 1. -/
def rSellAll1 : AlgorithmRule :=
  { id := 4, rule_type := "exit", condition_field := "position.quantity",
    condition_operator := ">", condition_value := .num 0,
    action := { verb := .sell, value := .all }, order_index := 1 }

/-- Ledger holding 10 shares at average price 100 and no cash. -/
def lHold10 : Ledger :=
  { balance := 0, position := some { quantity := 10, average_price := 100 },
    orders := [], txns := [] }

/-- The ledger after `executeSell lHold10 10 150`: position closed, 1500 in
cash — the state the SECOND in-tick sell request of
`evaluateSymbol [rSellAll0, rSellAll1]` runs against. -/
def lAfterFirstSell : Ledger :=
  { balance := 1500, position := none,
    orders := [{ side := .sell, quantity := 10, price := 150, status := .filled }],
    txns := [{ ttype := .sell, quantity := 10, price := 150, amount := 1500,
               balance_after := 1500 }] }

/-- A deterministic stand-in for the `Math.random()` stream: every draw is 1/2. -/
def randHalf : Nat → Rat := fun _ => 1 / 2

/-- An active algorithm owned by user 7. -/
def algoA : TradingAlgorithm := { id := 1, user_id := 7, name := "momentum", is_active := true }

/-- Engine registry with nothing running. -/
def engineSt0 : ExecutionEngine.EngineState :=
  { runningAlgorithms := [], intervals := [], activeTimers := [], nextTimer := 0 }

/-- Engine registry after starting algorithm 1 once: timer handle 0 live. -/
def engineSt1 : ExecutionEngine.EngineState :=
  { runningAlgorithms := [1], intervals := [(1, 0)], activeTimers := [0], nextTimer := 1 }

/-- Engine registry after starting algorithm 1 a second time: handle 1
registered while handle 0 is still live. -/
def engineSt2 : ExecutionEngine.EngineState :=
  { runningAlgorithms := [1], intervals := [(1, 1)], activeTimers := [0, 1], nextTimer := 2 }

/-- Backtest market context: price 150, open position of 10 @ 100. -/
def ctxHold10 : MarketContext :=
  { symbol := "AAPL", price := 150, open_ := 150, high := 150, low := 150, volume := 0,
    change := 0, changePercent := 0,
    position := some { quantity := 10, averagePrice := 100,
                       unrealizedPL := some 500, unrealizedPLPercent := some 50 },
    balance := some 0, sma_20 := none, sma_50 := none, rsi := none }

/-- A flat bar at close 150. -/
def bar150 : Bar :=
  { timestamp := 5, open_ := 150, high := 150, low := 150, close := 150, volume := 0 }

/-- `IF price > 0 THEN sell:4`. -/
def rSell4 : AlgorithmRule :=
  { id := 5, rule_type := "exit", condition_field := "price", condition_operator := ">",
    condition_value := .num 0, action := { verb := .sell, value := .num 4 },
    order_index := 0 }

/-- The open backtest position of 10 shares @ 100. -/
def posHold10 : BacktestEngine.BTPosition := { quantity := 10, averagePrice := 100, entryDate := 0 }

/-- The trade `executeAction rSell4 ctxHold10 bar150 0 (some posHold10)` produces. -/
def tradeSell4 : BacktestEngine.BTTrade :=
  { timestamp := 5, side := .sell, symbol := "AAPL", quantity := 4, price := 150,
    proceeds := 600, pl := some 200, plPercent := some 50, reason := "Rule 5: exit" }

/-- The expected ledger after the spec's scenario-5 buy: 10 @ 150 filled
against the fresh account. -/
def lBought : Ledger :=
  { balance := 98500, position := some { quantity := 10, average_price := 150 },
    orders := [{ side := .buy, quantity := 10, price := 150, status := .filled }],
    txns := [{ ttype := .buy, quantity := 10, price := 150, amount := -1500,
               balance_after := 98500 }] }

/-- The ledger produced by a tick of `[rSellAll0, rSellAll1]` on `lHold10`:
the 10 held shares are sold TWICE (the second rule still sees the
start-of-tick snapshot), leaving a negative position and a doubled
credit. -/
def lDoubleSold : Ledger :=
  { balance := 3000, position := some { quantity := -10, average_price := 150 },
    orders := [{ side := .sell, quantity := 10, price := 150, status := .filled },
               { side := .sell, quantity := 10, price := 150, status := .filled }],
    txns := [{ ttype := .sell, quantity := 10, price := 150, amount := 1500,
               balance_after := 1500 },
             { ttype := .sell, quantity := 10, price := 150, amount := 1500,
               balance_after := 3000 }] }

/-!  ## Theorems -/

/-- Debiting is guarded: a buy that does not pass the balance check leaves
the ledger's balance non-negative whenever it started non-negative. -/
theorem executeBuy_balance_nonneg (l : Ledger) (q : Int) (p : Rat) (h : 0 ≤ l.balance) :
    0 ≤ (ExecutionEngine.executeBuy l q p).balance := by
  simp only [ExecutionEngine.executeBuy]
  split
  · exact h
  · rename_i hge
    show 0 ≤ l.balance - (q : Rat) * p
    linarith [not_lt.mp hge]

/-- Auxiliary induction for the balance invariant over a fill sequence. -/
theorem applyFills_nonneg_aux (fills : List Fill) :
    ∀ l : Ledger, 0 ≤ l.balance → (∀ f ∈ fills, 0 ≤ f.qty ∧ 0 ≤ f.price) →
      0 ≤ (applyFills l fills).balance := by
  induction fills with
  | nil => intro l h _; exact h
  | cons f fs ih =>
      intro l h hf
      have hf0 := hf f (List.mem_cons_self f fs)
      have hstep : 0 ≤ (applyFill l f).balance := by
        cases f with
        | buy q p => exact executeBuy_balance_nonneg l q p h
        | sell q p =>
            have hq : (0 : Rat) ≤ (q : Rat) := by exact_mod_cast hf0.1
            have hp : (0 : Rat) ≤ p := hf0.2
            show 0 ≤ l.balance + (q : Rat) * p
            have := mul_nonneg hq hp
            linarith
      show 0 ≤ (applyFills (applyFill l f) fs).balance
      exact ih (applyFill l f) hstep (fun g hg => hf g (List.mem_cons_of_mem f hg))

/-- C4.  Starting from a non-negative balance, no sequence of buy and sell
fills (non-negative quantities and prices) can make the live balance
negative: a buy whose total cost exceeds the current balance is rejected
with no ledger change at all, and every sell only increases the balance. -/
theorem live_balance_never_negative (fills : List Fill) (l0 : Ledger)
    (h0 : 0 ≤ l0.balance) (hf : ∀ f ∈ fills, 0 ≤ f.qty ∧ 0 ≤ f.price) :
    0 ≤ (applyFills l0 fills).balance ∧
    (∀ (q : Int) (p : Rat), l0.balance < (q : Rat) * p →
        ExecutionEngine.executeBuy l0 q p = l0) ∧
    (∀ (q : Int) (p : Rat), 0 ≤ (q : Rat) * p →
        l0.balance ≤ (ExecutionEngine.executeSell l0 q p).balance) := by
  refine ⟨applyFills_nonneg_aux fills l0 h0 hf, ?_, ?_⟩
  · intro q p h
    simp only [ExecutionEngine.executeBuy]
    rw [if_pos h]
  · intro q p h
    show l0.balance ≤ l0.balance + (q : Rat) * p
    linarith

/-- Witness for C4: the fresh account buying 10 @ 150 then selling 4 @ 160
keeps the balance non-negative. -/
theorem live_balance_never_negative_witness :
    0 ≤ (applyFills lFresh [Fill.buy 10 150, Fill.sell 4 160]).balance ∧
    (∀ (q : Int) (p : Rat), lFresh.balance < (q : Rat) * p →
        ExecutionEngine.executeBuy lFresh q p = lFresh) ∧
    (∀ (q : Int) (p : Rat), 0 ≤ (q : Rat) * p →
        lFresh.balance ≤ (ExecutionEngine.executeSell lFresh q p).balance) :=
  live_balance_never_negative [Fill.buy 10 150, Fill.sell 4 160] lFresh
    (by decide) (by decide)

/-- C5.  A buy fill onto an existing position `(q, ap)` with `q + qty > 0`
yields quantity `q + qty` and exactly the weighted-average price
`(q·ap + qty·p)/(q + qty)` (exact rational equality, hence within 1 cent);
a buy with no existing position creates the row with `average_price = p`;
and a buy fill that passes the balance check updates the position exactly
through `Position.upsert`. -/
theorem executeBuy_average_price (q : Int) (ap p : Rat) (qty : Int)
    (hqty : 0 < qty) (hsum : 0 < q + qty) :
    Position.upsert (some { quantity := q, average_price := ap }) qty p =
      some { quantity := q + qty,
             average_price := ((q : Rat) * ap + (qty : Rat) * p) / ((q : Rat) + (qty : Rat)) } ∧
    Position.upsert none qty p = some { quantity := qty, average_price := p } ∧
    ∀ l : Ledger, ¬ l.balance < (qty : Rat) * p →
      (ExecutionEngine.executeBuy l qty p).position = Position.upsert l.position qty p := by
  refine ⟨?_, rfl, ?_⟩
  · have h1 : q + qty ≠ 0 := by omega
    simp only [Position.upsert, h1, if_false, Option.some.injEq, Position.mk.injEq]
    refine ⟨trivial, ?_⟩
    push_cast
    ring
  · intro l hl
    simp only [ExecutionEngine.executeBuy]
    rw [if_neg hl]

/-- Witness for C5: buying 5 @ 130 onto (10, 100) gives (15, 110). -/
theorem executeBuy_average_price_witness :
    Position.upsert (some { quantity := 10, average_price := 100 }) 5 130 =
      some { quantity := 10 + 5,
             average_price := ((10 : Rat) * 100 + (5 : Rat) * 130) / ((10 : Rat) + (5 : Rat)) } ∧
    Position.upsert none 5 130 = some { quantity := 5, average_price := 130 } ∧
    ∀ l : Ledger, ¬ l.balance < (5 : Rat) * 130 →
      (ExecutionEngine.executeBuy l 5 130).position = Position.upsert l.position 5 130 :=
  executeBuy_average_price 10 100 130 5 (by decide) (by decide)

/-- C1.  Evaluation of the live sell fill at the failing input: selling 4 of
10 shares held at average price 100, at market price 160, rewrites the
position's `average_price` to `(10·100 − 4·160)/6 = 60` instead of leaving
it at 100 (the quantity does decrease by exactly 4).  `Position.upsert`
applies the weighted-average formula to the negated sell quantity. -/
theorem executeSell_partial_changes_average_price :
    (ExecutionEngine.executeSell lHold10 4 160).position =
      some { quantity := 6, average_price := 60 } ∧
    (ExecutionEngine.executeSell lHold10 4 160).position ≠
      some { quantity := 6, average_price := 100 } := by
  have h : (ExecutionEngine.executeSell lHold10 4 160).position =
      some { quantity := 6, average_price := 60 } := by
    show Position.upsert (some { quantity := 10, average_price := 100 }) (-4) 160 = _
    norm_num [Position.upsert]
  refine ⟨h, ?_⟩
  rw [h]
  simp only [ne_eq, Option.some.injEq, Position.mk.injEq, not_and]
  intro _
  norm_num

/-- C8 counterexample: a 2-day span is requested as `1mo`, but the smallest
supported bucket covering 2 days is `5d` — `calculateRange` never returns
`1d` or `5d`. -/
theorem calculateRange_skips_small_buckets :
    BacktestEngine.calculateRange 0 (2 * 86400000) = "1mo" ∧
    BacktestEngine.smallestCoveringBucket 2 = "5d" ∧
    ("1mo" : String) ≠ "5d" := by
  refine ⟨?_, by norm_num [BacktestEngine.smallestCoveringBucket], by decide⟩
  have hd : ⌈((2 * 86400000 - 0 : Int) : Rat) / (1000 * 60 * 60 * 24)⌉ = 2 := by
    norm_num
  simp only [BacktestEngine.calculateRange, hd]
  norm_num

/-- C8 amended: for `start ≤ end`, the requested range is the smallest
bucket drawn from `{1mo, 3mo, 6mo, 1y, 2y, 5y}` (not the full supported
set) whose duration covers `ceil((end − start)/86 400 000)` days. -/
theorem calculateRange_smallest_code_bucket (startMs endMs : Int) (h : startMs ≤ endMs) :
    BacktestEngine.calculateRange startMs endMs =
      BacktestEngine.smallestCodeBucket
        ⌈((endMs - startMs : Int) : Rat) / (1000 * 60 * 60 * 24)⌉ := by
  simp only [BacktestEngine.calculateRange, BacktestEngine.smallestCodeBucket]
  split_ifs <;> first | rfl | omega

/-- Witness for C8: a 40-day span maps to the smallest covering code
bucket (`3mo`). -/
theorem calculateRange_smallest_code_bucket_witness :
    BacktestEngine.calculateRange 0 (40 * 86400000) =
      BacktestEngine.smallestCodeBucket
        ⌈((40 * 86400000 - 0 : Int) : Rat) / (1000 * 60 * 60 * 24)⌉ :=
  calculateRange_smallest_code_bucket 0 (40 * 86400000) (by decide)

/-- C7 counterexample: starting algorithm 1 twice succeeds both times —
`startAlgorithm` has no AlreadyRunning check; the second start returns
success, re-registers the context, and registers a second recurring timer
(handle 1) while the first timer (handle 0) is never cleared. -/
theorem startAlgorithm_second_start_succeeds :
    ExecutionEngine.startAlgorithm engineSt0 7 1 (some algoA) [rBuy10] = .ok engineSt1 ∧
    ExecutionEngine.startAlgorithm engineSt1 7 1 (some algoA) [rBuy10] = .ok engineSt2 ∧
    engineSt2.activeTimers = [0, 1] ∧
    engineSt2.runningAlgorithms = [1] :=
  ⟨rfl, rfl, rfl, rfl⟩

/-- C7 amended: calling start on an algorithm that is already registered
does not fail: the validations pass exactly as for a fresh start, the
registry keys are unchanged, the interval map entry is overwritten with a
fresh timer handle, and the new timer is registered while every previously
active timer (including the one being replaced) stays active. -/
theorem startAlgorithm_already_running_not_rejected
    (st : ExecutionEngine.EngineState) (a : TradingAlgorithm) (userId : Nat)
    (rules : List AlgorithmRule)
    (hrun : a.id ∈ st.runningAlgorithms) (hu : a.user_id = userId)
    (hact : a.is_active = true) (hr : rules ≠ []) :
    ExecutionEngine.startAlgorithm st userId a.id (some a) rules =
      .ok { runningAlgorithms := st.runningAlgorithms
            intervals := ExecutionEngine.setAssoc st.intervals a.id st.nextTimer
            activeTimers := st.activeTimers ++ [st.nextTimer]
            nextTimer := st.nextTimer + 1 } := by
  subst hu
  simp [ExecutionEngine.startAlgorithm, ExecutionEngine.setKey, hrun, hact,
    List.isEmpty_iff, hr]

/-- Witness for C7's amended claim at the concrete one-running-algorithm
registry. -/
theorem startAlgorithm_already_running_not_rejected_witness :
    ExecutionEngine.startAlgorithm engineSt1 7 algoA.id (some algoA) [rBuy10] =
      .ok { runningAlgorithms := engineSt1.runningAlgorithms
            intervals := ExecutionEngine.setAssoc engineSt1.intervals algoA.id engineSt1.nextTimer
            activeTimers := engineSt1.activeTimers ++ [engineSt1.nextTimer]
            nextTimer := engineSt1.nextTimer + 1 } :=
  startAlgorithm_already_running_not_rejected engineSt1 algoA 7 [rBuy10]
    (by decide) rfl rfl (by simp)

/-- C3 amended: the manual-order route's sell branch enforces the
precondition — with no position row, or a row holding fewer shares than
requested, it answers `Insufficient shares` and returns the ledger
untouched; the fill runs only when the precondition holds. -/
theorem placeSellOrder_checks_precondition (l : Ledger) (quantity : Int) (price : Rat) :
    ((l.position = none ∨ ∃ pos, l.position = some pos ∧ pos.quantity < quantity) →
        placeSellOrder l quantity price = (.insufficientShares, l)) ∧
    (∀ pos, l.position = some pos → quantity ≤ pos.quantity →
        placeSellOrder l quantity price = (.ok, ExecutionEngine.executeSell l quantity price)) := by
  constructor
  · rintro (h | ⟨pos, hpos, hlt⟩)
    · simp [placeSellOrder, h]
    · simp [placeSellOrder, hpos, hlt]
  · intro pos hpos hle
    simp [placeSellOrder, hpos, not_lt.mpr hle]

/-- Witness for C3's amended claim: selling 5 with no position is refused
with the ledger unchanged. -/
theorem placeSellOrder_checks_precondition_witness :
    placeSellOrder lFresh 5 100 = (.insufficientShares, lFresh) :=
  (placeSellOrder_checks_precondition lFresh 5 100).1 (Or.inl rfl)

/-- C9.  The backtest simulation and its metrics are deterministic: two
runs on identical algorithm, rules, bars, symbol, initial capital (and the
same square-root routine) produce identical trade sequences, equity curves,
final balances and metrics.  The embedded engine is a pure function — the
source touches no randomness, clock or database between the start of
`simulateTrades` and the end of `calculateMetrics`. -/
theorem backtest_deterministic
    (a₁ a₂ : TradingAlgorithm) (rules₁ rules₂ : List AlgorithmRule)
    (bars₁ bars₂ : List Bar) (sym₁ sym₂ : String) (cap₁ cap₂ : Rat)
    (sqrtFn₁ sqrtFn₂ : Rat → Rat)
    (ha : a₁ = a₂) (hr : rules₁ = rules₂) (hb : bars₁ = bars₂) (hs : sym₁ = sym₂)
    (hc : cap₁ = cap₂) (hq : sqrtFn₁ = sqrtFn₂) :
    BacktestEngine.simulateTrades a₁ rules₁ bars₁ sym₁ cap₁ =
      BacktestEngine.simulateTrades a₂ rules₂ bars₂ sym₂ cap₂ ∧
    BacktestEngine.calculateMetrics sqrtFn₁
        (BacktestEngine.simulateTrades a₁ rules₁ bars₁ sym₁ cap₁) cap₁ =
      BacktestEngine.calculateMetrics sqrtFn₂
        (BacktestEngine.simulateTrades a₂ rules₂ bars₂ sym₂ cap₂) cap₂ := by
  subst ha hr hb hs hc hq
  exact ⟨rfl, rfl⟩

/-- Witness for C9 at a concrete one-bar backtest. -/
theorem backtest_deterministic_witness :
    BacktestEngine.simulateTrades algoA [rBuy10] [bar150] "AAPL" 100000 =
      BacktestEngine.simulateTrades algoA [rBuy10] [bar150] "AAPL" 100000 ∧
    BacktestEngine.calculateMetrics id
        (BacktestEngine.simulateTrades algoA [rBuy10] [bar150] "AAPL" 100000) 100000 =
      BacktestEngine.calculateMetrics id
        (BacktestEngine.simulateTrades algoA [rBuy10] [bar150] "AAPL" 100000) 100000 :=
  backtest_deterministic algoA algoA [rBuy10] [rBuy10] [bar150] [bar150] "AAPL" "AAPL"
    100000 100000 id id rfl rfl rfl rfl rfl rfl

/-- Folding a conditionally-applied step equals folding the step over the
filtered list. -/
theorem foldl_if_filter {α β : Type} (p : α → Bool) (f : β → α → β) :
    ∀ (xs : List α) (b : β),
      xs.foldl (fun acc x => if p x then f acc x else acc) b = (xs.filter p).foldl f b := by
  intro xs
  induction xs with
  | nil => intro b; rfl
  | cons x l ih =>
      intro b
      by_cases h : p x = true <;> simp [List.filter_cons, h, ih]

/-- C2 amended: within one live tick for one symbol, rules run in ascending
`order_index`, but which rules fire is decided entirely by the market
context and position snapshot taken when the symbol's evaluation begins:
the tick equals folding the actions of exactly those rules that fire
against the initial snapshot, in sorted order, over the ledger.  Earlier
firings change what later ACTIONS do to the ledger (e.g. `executeBuy`
re-reads the balance), but never whether a later rule fires. -/
theorem evaluateSymbol_snapshot_semantics (rules : List AlgorithmRule) (symbol : String)
    (quote : Quote) (account : PaperAccount) (l : Ledger) :
    ExecutionEngine.evaluateSymbol rules symbol quote account l =
      ((sortRules rules).filter fun r =>
          ExecutionEngine.evaluateRule r
            (ExecutionEngine.buildMarketContext symbol quote l.position) account).foldl
        (fun lcur r =>
          ExecutionEngine.executeAction r
            (ExecutionEngine.buildMarketContext symbol quote l.position) account lcur) l ∧
    (sortRules rules).Sorted ruleLe ∧
    (sortRules rules).Perm rules := by
  refine ⟨?_, List.sorted_insertionSort ruleLe rules, List.perm_insertionSort ruleLe rules⟩
  exact foldl_if_filter _ _ (sortRules rules) l

/-- C2 counterexample (the spec's scenario 5): on a quote of 150 with no
position, rule #0 (`price > 100 → buy:10`) fires and fills, but rule #1
(`position.quantity > 5 → sell:all`) does NOT fire in the same tick — it is
evaluated against the position snapshot taken before the rule loop, which
is still empty.  The tick ends with the position open at (10, 150) and a
single buy order; the claim predicts a sell of 10 in the same tick and no
remaining position. -/
theorem evaluateSymbol_second_rule_sees_stale_position :
    ExecutionEngine.evaluateSymbol [rBuy10, rSellPos] "AAPL" quote150 acctFresh lFresh =
      lBought ∧
    lBought.orders.map OrderRow.side = [Side.buy] ∧
    lBought.position = some { quantity := 10, average_price := 150 } := by
  refine ⟨?_, rfl, rfl⟩
  have hs : sortRules [rBuy10, rSellPos] = [rBuy10, rSellPos] := by
    simp [sortRules, List.insertionSort, List.orderedInsert, ruleLe, rBuy10, rSellPos]
  have h0 : ExecutionEngine.evaluateRule rBuy10
      (ExecutionEngine.buildMarketContext "AAPL" quote150 lFresh.position) acctFresh = true := by
    decide
  have h1 : ExecutionEngine.evaluateRule rSellPos
      (ExecutionEngine.buildMarketContext "AAPL" quote150 lFresh.position) acctFresh = false := by
    decide
  simp only [ExecutionEngine.evaluateSymbol, hs, List.foldl_cons, List.foldl_nil, h0, h1,
    if_true, if_false]
  norm_num [ExecutionEngine.executeAction, ExecutionEngine.executeBuy, Position.upsert,
    rBuy10, quote150, acctFresh, lFresh, lBought, ExecutionEngine.buildMarketContext]

/-- C3 counterexample: `executeSell` itself never checks the precondition.
After an in-tick sell empties the position, a second sell request for 10
shares — precondition violated: no position exists — does not return an
error and does not leave the ledger unchanged: it fills, credits another
1500, and `Position.upsert` creates a quantity −10 row.  The final conjunct
shows the whole run is produced by one engine tick of two `sell:all` rules,
whose second rule is sized against the start-of-tick snapshot. -/
theorem executeSell_fills_without_precondition :
    ExecutionEngine.executeSell lHold10 10 150 = lAfterFirstSell ∧
    lAfterFirstSell.position = none ∧
    ExecutionEngine.executeSell lAfterFirstSell 10 150 ≠ lAfterFirstSell ∧
    (ExecutionEngine.executeSell lAfterFirstSell 10 150).position =
      some { quantity := -10, average_price := 150 } ∧
    ExecutionEngine.evaluateSymbol [rSellAll0, rSellAll1] "AAPL" quote150 acctZero lHold10 =
      lDoubleSold := by
  have hfirst : ExecutionEngine.executeSell lHold10 10 150 = lAfterFirstSell := by
    norm_num [ExecutionEngine.executeSell, Position.upsert, lHold10, lAfterFirstSell]
  have h4 : (ExecutionEngine.executeSell lAfterFirstSell 10 150).position =
      some { quantity := -10, average_price := 150 } := by
    norm_num [ExecutionEngine.executeSell, Position.upsert, lAfterFirstSell]
  have h3 : ExecutionEngine.executeSell lAfterFirstSell 10 150 ≠ lAfterFirstSell := by
    intro heq
    rw [heq] at h4
    simp [lAfterFirstSell] at h4
  refine ⟨hfirst, rfl, h3, h4, ?_⟩
  have hs : sortRules [rSellAll0, rSellAll1] = [rSellAll0, rSellAll1] := by
    simp [sortRules, List.insertionSort, List.orderedInsert, ruleLe, rSellAll0, rSellAll1]
  have h0 : ExecutionEngine.evaluateRule rSellAll0
      (ExecutionEngine.buildMarketContext "AAPL" quote150 lHold10.position) acctZero = true := by
    decide
  have h1 : ExecutionEngine.evaluateRule rSellAll1
      (ExecutionEngine.buildMarketContext "AAPL" quote150 lHold10.position) acctZero = true := by
    decide
  have hact0 : ExecutionEngine.executeAction rSellAll0
      (ExecutionEngine.buildMarketContext "AAPL" quote150 lHold10.position) acctZero lHold10 =
      lAfterFirstSell := by
    rw [show ExecutionEngine.executeAction rSellAll0
        (ExecutionEngine.buildMarketContext "AAPL" quote150 lHold10.position) acctZero lHold10 =
        ExecutionEngine.executeSell lHold10 10 150 from by norm_num [ExecutionEngine.executeAction,
          ExecutionEngine.buildMarketContext, rSellAll0, quote150, lHold10]]
    exact hfirst
  have hact1 : ExecutionEngine.executeAction rSellAll1
      (ExecutionEngine.buildMarketContext "AAPL" quote150 lHold10.position) acctZero
      lAfterFirstSell = lDoubleSold := by
    rw [show ExecutionEngine.executeAction rSellAll1
        (ExecutionEngine.buildMarketContext "AAPL" quote150 lHold10.position) acctZero
        lAfterFirstSell = ExecutionEngine.executeSell lAfterFirstSell 10 150 from by
          norm_num [ExecutionEngine.executeAction, ExecutionEngine.buildMarketContext,
            rSellAll1, quote150, lHold10]]
    norm_num [ExecutionEngine.executeSell, Position.upsert, lAfterFirstSell, lDoubleSold]
  simp only [ExecutionEngine.evaluateSymbol, hs, List.foldl_cons, List.foldl_nil, h0, h1,
    if_true, hact0, hact1]

/-- A `mapM` whose body always succeeds returns the plain map. -/
theorem mapM_ok_of_forall_ok {α β : Type} (f : α → Except String β) (g : α → β)
    (hf : ∀ a, f a = .ok (g a)) : ∀ xs : List α, xs.mapM f = .ok (xs.map g) := by
  intro xs
  induction xs with
  | nil => rfl
  | cons x rest ih => rw [List.mapM_cons, hf x, ih]; rfl

/-- C6 counterexample: in production mode, a failed upstream fetch is NOT
surfaced — `getQuote` answers `.ok` with the synthetic mock quote (here a
concrete price of 300 under the all-halves random stream), and
`getMultipleQuotes` keeps the failed symbol in the result map, bound to
that synthetic quote, instead of omitting it.  The source never consults
`NODE_ENV` on this path. -/
theorem getQuote_production_falls_back_to_mock :
    MarketData.getQuote .production "AAPL" (.error "ECONNREFUSED") randHalf 0 =
      .ok (MarketData.getMockQuote "AAPL" randHalf 0) ∧
    MarketData.getMultipleQuotes .production ["AAPL"] (fun _ => .error "ECONNREFUSED")
      (fun _ => randHalf) 0 = .ok [("AAPL", MarketData.getMockQuote "AAPL" randHalf 0)] ∧
    (MarketData.getMockQuote "AAPL" randHalf 0).price = 300 := by
  refine ⟨rfl, rfl, ?_⟩
  norm_num [MarketData.getMockQuote, randHalf]

/-- C6 amended: in EVERY mode, `getMultipleQuotes` succeeds and returns one
entry per requested symbol, in order; a symbol whose upstream fetch failed
is bound to the synthetic `getMockQuote` data, never omitted and never an
error. -/
theorem getMultipleQuotes_lists_every_symbol (mode : MarketData.NodeEnv)
    (symbols : List String) (upstreamOf : String → Except String MarketData.UpstreamChart)
    (randOf : String → Nat → Rat) (now : Int) :
    ∃ l, MarketData.getMultipleQuotes mode symbols upstreamOf randOf now = .ok l ∧
      l.map Prod.fst = symbols ∧
      ∀ s ∈ symbols, ∀ e, upstreamOf s = .error e →
        (s, MarketData.getMockQuote s (randOf s) now) ∈ l := by
  refine ⟨symbols.map (fun s =>
    (s, match upstreamOf s with
        | .ok u => MarketData.parseQuote u
        | .error _ => MarketData.getMockQuote s (randOf s) now)), ?_, ?_, ?_⟩
  · apply mapM_ok_of_forall_ok
    intro s
    cases h : upstreamOf s <;> simp [MarketData.getQuote, h]
  · induction symbols with
    | nil => rfl
    | cons s rest ih => exact congrArg (List.cons s) ih
  · intro s hs e he
    refine List.mem_map.mpr ⟨s, hs, ?_⟩
    rw [he]

/-- Witness for C6's amended claim on a one-symbol fan-out whose upstream
is down. -/
theorem getMultipleQuotes_lists_every_symbol_witness :
    ∃ l, MarketData.getMultipleQuotes .production ["AAPL"] (fun _ => .error "down")
        (fun _ => randHalf) 0 = .ok l ∧
      l.map Prod.fst = ["AAPL"] ∧
      ∀ s ∈ ["AAPL"], ∀ e,
        (fun _ => (.error "down" : Except String MarketData.UpstreamChart)) s = .error e →
        (s, MarketData.getMockQuote s ((fun _ => randHalf) s) 0) ∈ l :=
  getMultipleQuotes_lists_every_symbol .production ["AAPL"] (fun _ => .error "down")
    (fun _ => randHalf) 0

/-- In the backtest, `executeAction` invoked with an open position can only
produce a sell trade, and that trade carries the context price and proceeds
of exactly `quantity * price` for a positive quantity. -/
theorem executeAction_open_position_only_sells
    (rule : AlgorithmRule) (ctx : MarketContext) (bar : Bar) (balance : Rat)
    (p : BacktestEngine.BTPosition) (t : BacktestEngine.BTTrade)
    (h : BacktestEngine.executeAction rule ctx bar balance (some p) = some t) :
    t.side = .sell ∧ t.proceeds = (t.quantity : Rat) * ctx.price ∧ t.price = ctx.price ∧
    0 < t.quantity := by
  unfold BacktestEngine.executeAction at h
  rcases hv : rule.action.verb with _ | _ | _ <;> rw [hv] at h
  · simp at h
  · split at h
    · rename_i habs
      exact absurd habs (by simp)
    · simp only [] at h
      split at h
      · rename_i hpos
        injection h with h2
        subst h2
        exact ⟨rfl, rfl, rfl, hpos⟩
      · exact absurd h (by simp)
    · simp at h
  · simp at h

/-- C10.  Every sell trade the backtest rule loop executes from an open
position `p` credits exactly the SOLD quantity's proceeds
(`t.quantity * price`) and sets the in-memory position to `none` — even a
partial sell (`sell:<N>` / `sell:<N%>` computing `t.quantity < p.quantity`)
closes the whole position, and then the remaining shares are gone without
compensation: the resulting cash is strictly below the pre-trade mark-to-
market value `balance + p.quantity * price` whenever the price is
positive. -/
theorem backtest_sell_closes_position
    (rule : AlgorithmRule) (ctx : MarketContext) (bar : Bar)
    (balance : Rat) (p : BacktestEngine.BTPosition) (trades : List BacktestEngine.BTTrade)
    (t : BacktestEngine.BTTrade)
    (hfire : BacktestEngine.evaluateRule rule ctx = true)
    (hact : BacktestEngine.executeAction rule ctx bar balance (some p) = some t) :
    BacktestEngine.processRule ctx bar
        { balance := balance, position := some p, trades := trades } rule =
      { balance := balance + (t.quantity : Rat) * ctx.price, position := none,
        trades := trades ++ [t] } ∧
    (t.quantity < p.quantity → 0 < ctx.price →
      balance + (t.quantity : Rat) * ctx.price < balance + (p.quantity : Rat) * ctx.price) := by
  obtain ⟨hside, hproc, hprice, hqty⟩ :=
    executeAction_open_position_only_sells rule ctx bar balance p t hact
  constructor
  · simp only [BacktestEngine.processRule, hfire, if_true, hact]
    rcases t with ⟨ts, side, sym, qq, pr, c, pro, pl, plp, rsn⟩
    cases hside
    simp only [] at hproc ⊢
    rw [hproc]
  · intro h1 h2
    have h1' : (t.quantity : Rat) < (p.quantity : Rat) := by exact_mod_cast h1
    have := mul_lt_mul_of_pos_right h1' h2
    linarith

/-- Witness for C10: `sell:4` against an open position of 10 @ 100 at price
150 credits 600, empties the position, and loses the 6 unsold shares
(900 of value). -/
theorem backtest_sell_closes_position_witness :
    BacktestEngine.processRule ctxHold10 bar150
        { balance := 0, position := some posHold10, trades := [] } rSell4 =
      { balance := 0 + (tradeSell4.quantity : Rat) * ctxHold10.price, position := none,
        trades := [] ++ [tradeSell4] } ∧
    (tradeSell4.quantity < posHold10.quantity → 0 < ctxHold10.price →
      0 + (tradeSell4.quantity : Rat) * ctxHold10.price <
        0 + (posHold10.quantity : Rat) * ctxHold10.price) :=
  backtest_sell_closes_position rSell4 ctxHold10 bar150 0 posHold10 [] tradeSell4
    (by decide)
    (by
      norm_num [BacktestEngine.executeAction, rSell4, ctxHold10, posHold10, tradeSell4, bar150]
      decide)
